import Mathlib

/-!
Verification of the water-leak dashboard client logic.

The embedding models the plain data manipulation in `src/src/App.jsx` (the newer
revision, with client-side filtering and sorting) and `src/unnamed/part_000`
(the older revision, with server-side pagination). JS numbers appearing in
comparisons are modeled as `Int`; the value returned by Math.random is modeled
as a rational number in `[0, 1)` passed explicitly, since the call site consumes
it purely. JS arrays become `List`, JS objects become structures, and a fetch
that produced no data becomes `none`.
-/

set_option maxHeartbeats 1000000

namespace WaterLeak

/-- A row of the `sensors` table (App.jsx `fetchDashboardData`, step 1).
Geographic coordinates are display-only floating point values that no verified
operation reads, so they are omitted from the model. -/
structure Sensor where
  id : String
  name : String
  battery : Int
  status : String
  deriving DecidableEq, Repr

/-- A row of the `detections` table (App.jsx `fetchDashboardData`, step 2).
The timestamp is modeled as an integer on which only the order matters. -/
structure Detection where
  id : Nat
  sensor_id : String
  created_at : Int
  is_leak : Bool
  confidence : Int
  deriving DecidableEq, Repr

/-- App.jsx lines 10-15: the size estimator `estimateLeakSize`. -/
def estimateLeakSize (confidence : Int) : String :=
  if confidence > 85 then "Large (Burst)"
  else if confidence > 60 then "Medium"
  else if confidence > 0 then "Small (Drip)"
  else "N/A"

/-- App.jsx lines 17-20: the location estimator. The random draw of
Math.random is the explicit argument `rand`; the caller guarantees
`0 ≤ rand < 1`. -/
def estimateLocation (rand : ℚ) (sensorName : String) : String :=
  "~" ++ toString (Int.floor (rand * 20) + 5) ++ "m from " ++ sensorName

/-- One entry of `latestReadings`: the object spread `{...sensor, latestLog}`
built in App.jsx lines 75-81. -/
structure LatestReading where
  sensor : Sensor
  latestLog : Option Detection
  deriving DecidableEq, Repr

/-- App.jsx lines 75-81: `sensorData.map(sensor => ... logs.find(...) ...)`,
the reconciliation join of `fetchDashboardData`. `logs.find` returns the first
match scanning left to right, and `latestLog || null` turns a miss into null. -/
def reconcile (sensorData : List Sensor) (logs : List Detection) : List LatestReading :=
  sensorData.map fun sensor =>
    { sensor := sensor, latestLog := logs.find? fun l => l.sensor_id == sensor.id }

/-- The state held by the Dashboard component: the `sensors` and
`latestReadings` pieces set by `fetchDashboardData`. -/
structure DashState where
  sensors : List Sensor
  latestReadings : List LatestReading
  deriving DecidableEq, Repr

/-- App.jsx lines 60-84: the state updates performed by one run of
`fetchDashboardData`, given the two fetch results. A failed fetch yields
`none`; `if (sensorData) setSensors(...)` and `if (sensorData && logs)` guard
the two state writes. -/
def applyDashFetch (sensorData : Option (List Sensor)) (logs : Option (List Detection))
    (st : DashState) : DashState :=
  let st1 := match sensorData with
    | some sd => { st with sensors := sd }
    | none => st
  match sensorData, logs with
  | some sd, some lg => { st1 with latestReadings := reconcile sd lg }
  | _, _ => st1

/-- App.jsx line 212: the Leak Size cell, `isLeak ? estimateLeakSize(log.confidence) : '-'`
where `isLeak = log?.is_leak` is falsy when the log is null. -/
def dashSizeCell (log : Option Detection) : String :=
  match log with
  | some g => if g.is_leak then estimateLeakSize g.confidence else "-"
  | none => "-"

/-- App.jsx line 215: the Est. Location cell,
`isLeak ? estimateLocation(item.name) : '-'`. -/
def dashLocCell (log : Option Detection) (name : String) (rand : ℚ) : String :=
  match log with
  | some g => if g.is_leak then estimateLocation rand name else "-"
  | none => "-"

/-- A `detections` row as fetched by the history page of App.jsx, joined with
the sensor name (`select('*, sensors(name)')`): `sensors` is the joined record
reduced to its name, null when the join found nothing. -/
structure HistDetection where
  id : Nat
  sensor_id : String
  created_at : Int
  is_leak : Bool
  confidence : Int
  sensors : Option String
  deriving DecidableEq, Repr

/-- App.jsx line 263: `d.sensors?.name || 'Unknown'` (an empty name is falsy
in JS and also falls back to Unknown). -/
def sensorNameOf (d : HistDetection) : String :=
  match d.sensors with
  | some n => if n = "" then "Unknown" else n
  | none => "Unknown"

/-- An enhanced history row: the fetched fields plus the three derived fields
precomputed in App.jsx lines 260-265. -/
structure Row extends HistDetection where
  leak_size : String
  location : String
  status_text : String
  deriving DecidableEq, Repr

/-- App.jsx lines 260-265: derive `leak_size`, `location` and `status_text`
for one fetched row. The random draw used by `estimateLocation` is `rand`. -/
def enhanceRow (rand : ℚ) (d : HistDetection) : Row :=
  { toHistDetection := d
    leak_size := if d.is_leak then estimateLeakSize d.confidence else "Normal"
    location := if d.is_leak then estimateLocation rand (sensorNameOf d) else "-"
    status_text := if d.is_leak then "Leak" else "Normal" }

/-- App.jsx line 260: `data.map(d => ...)` over the fetched rows; each row
consumes its own random draw, indexed by position. -/
def enhanceData (rand : Nat → ℚ) (raw : List HistDetection) : List Row :=
  raw.mapIdx fun i d => enhanceRow (rand i) d

/-- The state held by the DetectionHistory component of App.jsx. -/
structure HistState where
  fullHistory : List Row
  filteredData : List Row
  deriving DecidableEq, Repr

/-- App.jsx lines 251-269: the state update of `fetchHistory`; `if (data)`
guards both state writes, so a failed fetch changes nothing. -/
def applyHistFetch (rand : Nat → ℚ) (d : Option (List HistDetection))
    (st : HistState) : HistState :=
  match d with
  | some rows =>
    let e := enhanceData rand rows
    { fullHistory := e, filteredData := e }
  | none => st

/-- The state held by the DetectionHistory component of the older revision
(part_000 lines 277, 315-323); only the fetched rows matter here. -/
structure Hist2State where
  data : List Detection
  deriving DecidableEq, Repr

/-- part_000 lines 315-322: `if (error) console.error(...) else setData(result || [])`.
On error the displayed rows are untouched; on success a null result becomes
the empty list. -/
def applyHistFetch2 (res : Option (List Detection)) (err : Bool)
    (st : Hist2State) : Hist2State :=
  if err then st else { data := res.getD [] }

/-- The filter state of the history page, App.jsx lines 241-245. The two text
fields keep their JS string value; the numeric min-confidence field is `none`
when empty (falsy) and `some n` when it holds the digits of `n`, which is what
`if (filters.minConfidence)` plus `parseInt` observe. -/
structure Filters where
  sensor_id : String
  result : String
  minConfidence : Option Int
  deriving DecidableEq, Repr

/-- JS substring containment `s.includes(sub)` on char lists. -/
def hasSub (sub : List Char) : List Char → Bool
  | [] => sub.isEmpty
  | c :: t => sub.isPrefixOf (c :: t) || hasSub sub t

/-- App.jsx line 277: `r.sensor_id.toLowerCase().includes(filters.sensor_id.toLowerCase())`.
JS toLowerCase is modeled by the ASCII `String.toLower`; the claims never
depend on the exact case fold. -/
def sensorMatch (flt : String) (r : Row) : Bool :=
  hasSub flt.toLower.data r.sensor_id.toLower.data

/-- App.jsx lines 276-278: the sensor-id filter stage, skipped when the field
is empty (falsy). -/
def filterStep1 (f : Filters) (l : List Row) : List Row :=
  if f.sensor_id ≠ "" then l.filter (fun r => sensorMatch f.sensor_id r) else l

/-- App.jsx lines 279-282: the leak/normal filter stage, skipped when the
select holds the empty string or the value all. -/
def filterStep2 (f : Filters) (l : List Row) : List Row :=
  if f.result ≠ "" ∧ f.result ≠ "all" then
    l.filter (fun r => r.is_leak == decide (f.result = "leak"))
  else l

/-- App.jsx lines 283-285: the minimum-confidence filter stage, skipped when
the field is empty. -/
def filterStep3 (f : Filters) (l : List Row) : List Row :=
  match f.minConfidence with
  | some c => l.filter (fun r => decide (c ≤ r.confidence))
  | none => l

/-- App.jsx lines 272-285: the three filter stages applied in sequence to a
copy of the full history. -/
def applyFilters (f : Filters) (l : List Row) : List Row :=
  filterStep3 f (filterStep2 f (filterStep1 f l))

/-- The conjunction of the active criteria, as a single row predicate: an
inactive criterion contributes `true`. -/
def rowPasses (f : Filters) (r : Row) : Bool :=
  (decide (f.sensor_id = "") || sensorMatch f.sensor_id r) &&
  (decide (f.result = "") || decide (f.result = "all") ||
    (r.is_leak == decide (f.result = "leak"))) &&
  (match f.minConfidence with
   | some c => decide (c ≤ r.confidence)
   | none => true)

/-- The sortable columns of the history table, App.jsx lines 374-379. -/
inductive SortKey where
  | created_at
  | sensor_id
  | status_text
  | confidence
  | leak_size
  | location
  deriving DecidableEq, Repr

/-- Strict comparison of the projections of two rows under a key function. -/
def keyLtB {α K : Type} [LinearOrder K] (key : α → K) (a b : α) : Bool :=
  decide (key a < key b)

/-- App.jsx lines 289-293: the comparator passed to `Array.prototype.sort`;
`asc` is true for direction asc. It returns a negative, positive or zero
number exactly as the source does. -/
def jsCompare {α : Type} (lt : α → α → Bool) (asc : Bool) (a b : α) : Int :=
  if lt a b then (if asc then -1 else 1)
  else if lt b a then (if asc then 1 else -1)
  else 0

/-- The non-strict order induced by the comparator: a sorted output is
pairwise `jsCompare ≤ 0`. -/
abbrev compLe {α : Type} (lt : α → α → Bool) (asc : Bool) (a b : α) : Prop :=
  jsCompare lt asc a b ≤ 0

/-- The ECMAScript `Array.prototype.sort` with a consistent comparator: the
unique stable reordering that is pairwise `jsCompare ≤ 0`, modeled by the
stable `List.insertionSort`. -/
def sortJS {α : Type} (lt : α → α → Bool) (asc : Bool) (l : List α) : List α :=
  List.insertionSort (compLe lt asc) l

/-- App.jsx line 290: `a[sortConfig.key]` compared with the order of the
column type (numbers for timestamps and confidence, strings elsewhere). -/
def keyLt (k : SortKey) : Row → Row → Bool :=
  match k with
  | .created_at => keyLtB fun r => r.created_at
  | .sensor_id => keyLtB fun r => r.sensor_id
  | .status_text => keyLtB fun r => r.status_text
  | .confidence => keyLtB fun r => r.confidence
  | .leak_size => keyLtB fun r => r.leak_size
  | .location => keyLtB fun r => r.location

/-- App.jsx lines 288-294: `result.sort(comparator)` for the chosen column and
direction. -/
def sortHistory (k : SortKey) (asc : Bool) (l : List Row) : List Row :=
  sortJS (keyLt k) asc l

/-- part_000 line 280: the fixed page size of the server-side pagination. -/
def PAGE_SIZE : Nat := 100

/-- The UI state of the paginated history page, part_000 lines 279-289. -/
structure HistUI where
  page : Int
  sensor_id : String
  minConfidence : String
  deriving DecidableEq, Repr

/-- The user actions that touch the page index, part_000 lines 371-389 and
435-453. -/
inductive UIStep where
  | prev
  | next
  | setSensor (s : String)
  | setConf (s : String)
  deriving DecidableEq, Repr

/-- The state transitions: Prev maps the page through `Math.max(0, p - 1)`,
Next through `p + 1`, and either filter change writes the field and resets the
page to 0. -/
def stepUI : UIStep → HistUI → HistUI
  | .prev, st => { st with page := max 0 (st.page - 1) }
  | .next, st => { st with page := st.page + 1 }
  | .setSensor s, st => { st with sensor_id := s, page := 0 }
  | .setConf s, st => { st with minConfidence := s, page := 0 }

/-- part_000 line 438: `disabled={page === 0}` on the Prev button. -/
def prevDisabled (st : HistUI) : Bool :=
  st.page == 0

/-- part_000 line 448: `disabled={data.length < PAGE_SIZE}` on the Next
button. -/
def nextDisabled (rows : List Detection) : Bool :=
  decide (rows.length < PAGE_SIZE)

/-- Concrete history rows for the stability example: confidences 50, 90, 50
with ids a, b, c. -/
def exRowA : Row :=
  { id := 1, sensor_id := "a", created_at := 0, is_leak := true, confidence := 50,
    sensors := none, leak_size := "", location := "", status_text := "" }

def exRowB : Row :=
  { id := 2, sensor_id := "b", created_at := 0, is_leak := true, confidence := 90,
    sensors := none, leak_size := "", location := "", status_text := "" }

def exRowC : Row :=
  { id := 3, sensor_id := "c", created_at := 0, is_leak := true, confidence := 50,
    sensors := none, leak_size := "", location := "", status_text := "" }

/-- Concrete inputs used by the witnesses. -/
def wS : Sensor :=
  { id := "s1", name := "Pump", battery := 80, status := "active" }

def wE1 : Detection :=
  { id := 1, sensor_id := "s1", created_at := 10, is_leak := true, confidence := 70 }

def wE2 : Detection :=
  { id := 2, sensor_id := "s1", created_at := 5, is_leak := false, confidence := 20 }

def wD : HistDetection :=
  { id := 5, sensor_id := "s1", created_at := 3, is_leak := false, confidence := 40,
    sensors := some "Pump" }

def wG : Detection :=
  { id := 6, sensor_id := "s2", created_at := 4, is_leak := false, confidence := 10 }

def wUI : HistUI :=
  { page := 2, sensor_id := "", minConfidence := "" }

def wF : Filters :=
  { sensor_id := "", result := "all", minConfidence := none }

/-- First batch of theorems: the derived-metrics estimators, purity of the
reconciliation, leak gating, failure handling and pagination. -/
theorem find_desc_max {p : Detection → Bool} :
    ∀ {logs : List Detection},
      logs.Pairwise (fun a b => b.created_at ≤ a.created_at) →
      ∀ {e : Detection}, logs.find? p = some e →
        e ∈ logs ∧ p e = true ∧ ∀ e' ∈ logs, p e' = true → e'.created_at ≤ e.created_at := by
  intro logs
  induction logs with
  | nil => intro _ e h; simp at h
  | cons x xs ih =>
    intro hp e hfind
    rw [List.pairwise_cons] at hp
    by_cases hx : p x = true
    · rw [List.find?_cons_of_pos _ hx] at hfind
      obtain rfl : x = e := by injection hfind
      refine ⟨List.mem_cons_self _ _, hx, ?_⟩
      intro e' he' _
      rcases List.mem_cons.mp he' with rfl | h
      · exact le_refl _
      · exact hp.1 e' h
    · rw [List.find?_cons_of_neg _ hx] at hfind
      obtain ⟨hmem, hpe, hmax⟩ := ih hp.2 hfind
      refine ⟨List.mem_cons_of_mem _ hmem, hpe, ?_⟩
      intro e' he' hpe'
      rcases List.mem_cons.mp he' with rfl | h
      · exact absurd hpe' hx
      · exact hmax e' h hpe'

theorem reconcile_map_sensor (S : List Sensor) (E : List Detection) :
    (reconcile S E).map (fun en => en.sensor) = S := by
  rw [reconcile, List.map_map]
  exact List.map_id S

/-- C1: for a sensor list S and a timestamp-descending event list E,
reconcile returns exactly one entry per sensor, in order, each carrying a
maximum-timestamp matching event of E when one exists and no event
otherwise. -/
theorem reconcile_spec (S : List Sensor) (E : List Detection)
    (hE : E.Pairwise fun a b => b.created_at ≤ a.created_at) :
    (reconcile S E).length = S.length ∧
    (reconcile S E).map (fun en => en.sensor) = S ∧
    ∀ en ∈ reconcile S E,
      (∀ e, en.latestLog = some e →
        e.sensor_id = en.sensor.id ∧ e ∈ E ∧
        ∀ e' ∈ E, e'.sensor_id = en.sensor.id → e'.created_at ≤ e.created_at) ∧
      (en.latestLog = none → ∀ e' ∈ E, e'.sensor_id ≠ en.sensor.id) := by
  refine ⟨by simp [reconcile], reconcile_map_sensor S E, ?_⟩
  intro en hen
  simp only [reconcile, List.mem_map] at hen
  obtain ⟨s, hs, rfl⟩ := hen
  constructor
  · intro e he
    obtain ⟨hmem, hpe, hmax⟩ := find_desc_max hE he
    refine ⟨by simpa using hpe, hmem, ?_⟩
    intro e' he' hid
    exact hmax e' he' (by simpa using hid)
  · intro hnone e' he' hid
    have h := List.find?_eq_none.mp hnone e' he'
    simp only [beq_iff_eq] at h
    exact h hid

theorem reconcile_spec_witness :
    ([wE1, wE2].Pairwise fun a b => b.created_at ≤ a.created_at) ∧
    ((reconcile [wS] [wE1, wE2]).length = [wS].length ∧
     (reconcile [wS] [wE1, wE2]).map (fun en => en.sensor) = [wS] ∧
     ∀ en ∈ reconcile [wS] [wE1, wE2],
       (∀ e, en.latestLog = some e →
         e.sensor_id = en.sensor.id ∧ e ∈ [wE1, wE2] ∧
         ∀ e' ∈ [wE1, wE2], e'.sensor_id = en.sensor.id → e'.created_at ≤ e.created_at) ∧
       (en.latestLog = none → ∀ e' ∈ [wE1, wE2], e'.sensor_id ≠ en.sensor.id)) :=
  ⟨by decide, reconcile_spec [wS] [wE1, wE2] (by decide)⟩

/-- C2 counterexample: the code labels a confidence of 90 as Large (Burst),
not Large. -/
theorem estimateLeakSize_label_counterexample : ¬ (estimateLeakSize 90 = "Large") := by
  decide

/-- C2 amended: same strict thresholds, with the labels the code actually
returns: Large (Burst), Medium, Small (Drip) and N/A. -/
theorem estimateLeakSize_thresholds (c : Int) :
    (85 < c → estimateLeakSize c = "Large (Burst)") ∧
    (60 < c → c ≤ 85 → estimateLeakSize c = "Medium") ∧
    (0 < c → c ≤ 60 → estimateLeakSize c = "Small (Drip)") ∧
    (c ≤ 0 → estimateLeakSize c = "N/A") ∧
    estimateLeakSize 90 = "Large (Burst)" ∧ estimateLeakSize 70 = "Medium" ∧
    estimateLeakSize 10 = "Small (Drip)" ∧ estimateLeakSize 0 = "N/A" := by
  refine ⟨?_, ?_, ?_, ?_, by decide, by decide, by decide, by decide⟩ <;>
  · intros
    unfold estimateLeakSize
    split_ifs <;> first | rfl | omega

theorem estimateLeakSize_thresholds_witness :
    85 < (90 : Int) ∧ estimateLeakSize 90 = "Large (Burst)" :=
  ⟨by decide, (estimateLeakSize_thresholds 90).1 (by decide)⟩

/-- C9: the location estimate embeds the sensor name verbatim after a distance
of floor(r times 20) plus 5 meters, always between 5 and 24 inclusive. -/
theorem estimateLocation_spec (r : ℚ) (name : String) (h0 : 0 ≤ r) (h1 : r < 1) :
    ∃ d : ℤ, estimateLocation r name = "~" ++ toString d ++ "m from " ++ name ∧
      d = Int.floor (r * 20) + 5 ∧ 5 ≤ d ∧ d ≤ 24 := by
  refine ⟨Int.floor (r * 20) + 5, rfl, rfl, ?_, ?_⟩
  · have h : (0 : ℤ) ≤ Int.floor (r * 20) :=
      Int.floor_nonneg.mpr (mul_nonneg h0 (by norm_num))
    omega
  · have h : Int.floor (r * 20) < 20 := by
      rw [Int.floor_lt]
      push_cast
      nlinarith
    omega

theorem estimateLocation_spec_witness :
    (0 : ℚ) ≤ 1 / 2 ∧ (1 / 2 : ℚ) < 1 ∧
    ∃ d : ℤ, estimateLocation (1 / 2) "Pump Room" = "~" ++ toString d ++ "m from " ++ "Pump Room" ∧
      d = Int.floor ((1 / 2 : ℚ) * 20) + 5 ∧ 5 ≤ d ∧ d ≤ 24 :=
  ⟨by norm_num, by norm_num,
    estimateLocation_spec (1 / 2) "Pump Room" (by norm_num) (by norm_num)⟩

/-- C6: the reconciliation is deterministic and side-effect free: identical
inputs give identical outputs, the sensor records pass through unmodified,
and re-applying the same fetch result to the component state is idempotent. -/
theorem reconcile_pure (S : List Sensor) (E : List Detection)
    (sd : Option (List Sensor)) (lg : Option (List Detection)) (st : DashState) :
    reconcile S E = reconcile S E ∧
    (reconcile S E).map (fun en => en.sensor) = S ∧
    applyDashFetch sd lg (applyDashFetch sd lg st) = applyDashFetch sd lg st := by
  refine ⟨rfl, reconcile_map_sensor S E, ?_⟩
  cases sd <;> cases lg <;> rfl

/-- C7: when the leak flag is false every derived field is the fixed
placeholder and the estimators are never consulted: the history row shows
Normal and a dash independently of the random draw, and the dashboard cells
show dashes. -/
theorem leak_gating (d : HistDetection) (g : Detection) (name : String) (r r' : ℚ)
    (hd : d.is_leak = false) (hg : g.is_leak = false) :
    (enhanceRow r d).leak_size = "Normal" ∧
    (enhanceRow r d).location = "-" ∧
    (enhanceRow r d).status_text = "Normal" ∧
    enhanceRow r d = enhanceRow r' d ∧
    dashSizeCell (some g) = "-" ∧
    dashSizeCell none = "-" ∧
    dashLocCell (some g) name r = "-" ∧
    dashLocCell none name r = "-" := by
  simp [enhanceRow, dashSizeCell, dashLocCell, hd, hg]

theorem leak_gating_witness :
    wD.is_leak = false ∧ wG.is_leak = false ∧
    ((enhanceRow (1 / 2) wD).leak_size = "Normal" ∧
     (enhanceRow (1 / 2) wD).location = "-" ∧
     (enhanceRow (1 / 2) wD).status_text = "Normal" ∧
     enhanceRow (1 / 2) wD = enhanceRow (1 / 3) wD ∧
     dashSizeCell (some wG) = "-" ∧
     dashSizeCell none = "-" ∧
     dashLocCell (some wG) "Pump" (1 / 2) = "-" ∧
     dashLocCell none "Pump" (1 / 2) = "-") :=
  ⟨rfl, rfl, leak_gating wD wG "Pump" (1 / 2) (1 / 3) rfl rfl⟩

/-- C8: a fetch that produced no data is never applied: the dashboard state
and the history states are left exactly as they were, and an erroring history
query on the paginated page changes nothing. -/
theorem fetch_failure_state (st : DashState) (S : List Sensor) (E : List Detection)
    (rand : Nat → ℚ) (hst : HistState) (st2 : Hist2State) (res : Option (List Detection)) :
    applyDashFetch none none st = st ∧
    applyDashFetch none (some E) st = st ∧
    (applyDashFetch (some S) none st).latestReadings = st.latestReadings ∧
    applyHistFetch rand none hst = hst ∧
    applyHistFetch2 res true st2 = st2 :=
  ⟨rfl, rfl, rfl, rfl, rfl⟩

/-- C10: the page index stays a non-negative integer under every UI step:
Prev clamps at 0 and is disabled exactly at page 0, Next increments and is
disabled exactly when the fetch returned fewer than 100 rows, and either
filter change resets the page to 0. -/
theorem pagination_spec (st : HistUI) (s : UIStep) (rows : List Detection) (str : String)
    (h : 0 ≤ st.page) :
    0 ≤ (stepUI s st).page ∧
    (stepUI .prev st).page = max 0 (st.page - 1) ∧
    (stepUI .next st).page = st.page + 1 ∧
    (stepUI (.setSensor str) st).page = 0 ∧
    (stepUI (.setConf str) st).page = 0 ∧
    (prevDisabled st = true ↔ st.page = 0) ∧
    (nextDisabled rows = true ↔ rows.length < 100) := by
  refine ⟨?_, rfl, rfl, rfl, rfl, ?_, ?_⟩
  · cases s
    · simp [stepUI]
    · simp [stepUI]
      omega
    · simp [stepUI]
    · simp [stepUI]
  · simp [prevDisabled]
  · simp [nextDisabled, PAGE_SIZE]

theorem pagination_spec_witness :
    0 ≤ wUI.page ∧
    (0 ≤ (stepUI .prev wUI).page ∧
     (stepUI .prev wUI).page = max 0 (wUI.page - 1) ∧
     (stepUI .next wUI).page = wUI.page + 1 ∧
     (stepUI (.setSensor "x") wUI).page = 0 ∧
     (stepUI (.setConf "x") wUI).page = 0 ∧
     (prevDisabled wUI = true ↔ wUI.page = 0) ∧
     (nextDisabled [] = true ↔ ([] : List Detection).length < 100)) :=
  ⟨by decide, pagination_spec wUI .prev [] "x" (by decide)⟩

theorem filterStep1_eq (f : Filters) (l : List Row) :
    filterStep1 f l = l.filter fun r => decide (f.sensor_id = "") || sensorMatch f.sensor_id r := by
  unfold filterStep1
  by_cases h : f.sensor_id = ""
  · simp [h]
  · simp [h]

theorem filterStep2_eq (f : Filters) (l : List Row) :
    filterStep2 f l = l.filter fun r =>
      decide (f.result = "") || decide (f.result = "all") ||
        (r.is_leak == decide (f.result = "leak")) := by
  unfold filterStep2
  by_cases h1 : f.result = ""
  · simp [h1]
  · by_cases h2 : f.result = "all"
    · simp [h1, h2]
    · simp [h1, h2]

theorem filterStep3_eq (f : Filters) (l : List Row) :
    filterStep3 f l = l.filter fun r =>
      match f.minConfidence with
      | some c => decide (c ≤ r.confidence)
      | none => true := by
  cases hm : f.minConfidence <;> simp [filterStep3, hm]

theorem applyFilters_eq_filter (f : Filters) (l : List Row) :
    applyFilters f l = l.filter (rowPasses f) := by
  rw [applyFilters, filterStep1_eq, filterStep2_eq, filterStep3_eq,
    List.filter_filter, List.filter_filter]
  apply List.filter_congr
  intro a _
  unfold rowPasses
  cases hm : f.minConfidence <;>
    simp only [hm] <;>
    cases hb1 : decide (f.sensor_id = "") <;>
    cases hb2 : sensorMatch f.sensor_id a <;>
    cases hb3 : decide (f.result = "") <;>
    cases hb4 : decide (f.result = "all") <;>
    cases hb5 : (a.is_leak == decide (f.result = "leak")) <;>
    simp

/-- C4: the history filter keeps exactly the rows passing the conjunction of
the active criteria, and every empty or absent criterion leaves the rows
untouched. -/
theorem filters_conjunctive (f : Filters) (l : List Row) :
    applyFilters f l = l.filter (rowPasses f) ∧
    (f.sensor_id = "" → filterStep1 f l = l) ∧
    (f.result = "" ∨ f.result = "all" → filterStep2 f l = l) ∧
    (f.minConfidence = none → filterStep3 f l = l) := by
  refine ⟨applyFilters_eq_filter f l, ?_, ?_, ?_⟩
  · intro h
    simp [filterStep1, h]
  · intro h
    rcases h with h | h <;> simp [filterStep2, h]
  · intro h
    simp [filterStep3, h]

theorem filters_conjunctive_witness :
    wF.sensor_id = "" ∧ (wF.result = "" ∨ wF.result = "all") ∧ wF.minConfidence = none ∧
    filterStep1 wF [exRowA] = [exRowA] ∧ filterStep2 wF [exRowA] = [exRowA] ∧
    filterStep3 wF [exRowA] = [exRowA] :=
  ⟨rfl, Or.inr rfl, rfl,
    (filters_conjunctive wF [exRowA]).2.1 rfl,
    (filters_conjunctive wF [exRowA]).2.2.1 (Or.inr rfl),
    (filters_conjunctive wF [exRowA]).2.2.2 rfl⟩

/-- C5: applying the same filter set twice yields the same rows as applying
it once. -/
theorem filters_idempotent (f : Filters) (l : List Row) :
    applyFilters f (applyFilters f l) = applyFilters f l := by
  rw [applyFilters_eq_filter, applyFilters_eq_filter, List.filter_filter]
  apply List.filter_congr
  intro a _
  cases rowPasses f a <;> rfl

theorem compLe_true_iff {α K : Type} [LinearOrder K] (key : α → K) (a b : α) :
    compLe (keyLtB key) true a b ↔ key a ≤ key b := by
  unfold compLe jsCompare keyLtB
  rcases lt_trichotomy (key a) (key b) with h | h | h
  · simp [h, le_of_lt h]
  · simp [h]
  · simp [h, lt_asymm h, not_le.mpr h]

theorem compLe_false_iff {α K : Type} [LinearOrder K] (key : α → K) (a b : α) :
    compLe (keyLtB key) false a b ↔ key b ≤ key a := by
  unfold compLe jsCompare keyLtB
  rcases lt_trichotomy (key a) (key b) with h | h | h
  · simp [h, lt_asymm h, not_le.mpr h]
  · simp [h]
  · simp [h, lt_asymm h, le_of_lt h]

theorem jsCompare_zero_iff {α K : Type} [LinearOrder K] (key : α → K) (asc : Bool) (a b : α) :
    jsCompare (keyLtB key) asc a b = 0 ↔ key a = key b := by
  unfold jsCompare keyLtB
  rcases lt_trichotomy (key a) (key b) with h | h | h
  · cases asc <;> simp [h, ne_of_lt h]
  · simp [h]
  · cases asc <;> simp [h, lt_asymm h, (ne_of_lt h).symm]

theorem sortJS_sorted {α K : Type} [LinearOrder K] (key : α → K) (asc : Bool) (l : List α) :
    (sortJS (keyLtB key) asc l).Pairwise fun a b => jsCompare (keyLtB key) asc a b ≤ 0 := by
  haveI ht : IsTotal α (compLe (keyLtB key) asc) := by
    constructor
    intro a b
    cases asc
    · rw [compLe_false_iff, compLe_false_iff]
      exact le_total (key b) (key a)
    · rw [compLe_true_iff, compLe_true_iff]
      exact le_total (key a) (key b)
  haveI htr : IsTrans α (compLe (keyLtB key) asc) := by
    constructor
    intro a b c hab hbc
    cases asc
    · rw [compLe_false_iff] at hab hbc ⊢
      exact hbc.trans hab
    · rw [compLe_true_iff] at hab hbc ⊢
      exact hab.trans hbc
  exact List.sorted_insertionSort (compLe (keyLtB key) asc) l

theorem filter_orderedInsert {α : Type} {R : α → α → Prop} [DecidableRel R]
    (p : α → Bool) (x : α) (hx : ∀ z, p x = true → p z = true → R x z) :
    ∀ l : List α, (l.orderedInsert R x).filter p =
      if p x then x :: l.filter p else l.filter p := by
  intro l
  induction l with
  | nil => simp [List.orderedInsert, List.filter_cons]
  | cons y t ih =>
    rw [List.orderedInsert]
    by_cases hR : R x y
    · rw [if_pos hR]
      by_cases hpx : p x = true
      · simp [List.filter_cons, hpx]
      · simp [List.filter_cons, hpx]
    · rw [if_neg hR]
      by_cases hpy : p y = true
      · have hpx : ¬ p x = true := fun h => hR (hx y h hpy)
        simp [List.filter_cons, hpy, hpx, ih]
      · simp [List.filter_cons, hpy, ih]

theorem sortJS_filter_stable {α K : Type} [LinearOrder K] (key : α → K) (asc : Bool)
    (p : α → Bool) (hp : ∀ a b, p a = true → p b = true → key a = key b) (l : List α) :
    (sortJS (keyLtB key) asc l).filter p = l.filter p := by
  unfold sortJS
  induction l with
  | nil => rfl
  | cons x t ih =>
    have hx : ∀ z, p x = true → p z = true → compLe (keyLtB key) asc x z := by
      intro z hpx hpz
      have hk : key x = key z := hp x z hpx hpz
      cases asc
      · rw [compLe_false_iff]
        exact hk.ge
      · rw [compLe_true_iff]
        exact hk.le
    rw [List.insertionSort,
      filter_orderedInsert p x hx (List.insertionSort (compLe (keyLtB key) asc) t), ih,
      List.filter_cons]

theorem sortJS_desc_reverse {α K : Type} [LinearOrder K] (key : α → K) (l : List α)
    (hnd : l.Pairwise fun a b => key a ≠ key b) :
    sortJS (keyLtB key) false l = (sortJS (keyLtB key) true l).reverse := by
  have hpermA : (sortJS (keyLtB key) true l).Perm l := List.perm_insertionSort _ l
  have hpermD : (sortJS (keyLtB key) false l).Perm l := List.perm_insertionSort _ l
  have hsortA : (sortJS (keyLtB key) true l).Pairwise fun a b => key a ≤ key b :=
    (sortJS_sorted key true l).imp fun hab => (compLe_true_iff key _ _).mp hab
  have hsortD : (sortJS (keyLtB key) false l).Pairwise fun a b => key b ≤ key a :=
    (sortJS_sorted key false l).imp fun hab => (compLe_false_iff key _ _).mp hab
  have hrevA : ((sortJS (keyLtB key) true l).reverse).Pairwise fun a b => key b ≤ key a := by
    rw [List.pairwise_reverse]
    exact hsortA
  have hndD : (sortJS (keyLtB key) false l).Pairwise fun a b => key a ≠ key b :=
    (hpermD.pairwise_iff (fun h => Ne.symm h)).mpr hnd
  have hrevperm : ((sortJS (keyLtB key) true l).reverse).Perm l :=
    (List.reverse_perm _).trans hpermA
  have hndR : ((sortJS (keyLtB key) true l).reverse).Pairwise fun a b => key a ≠ key b :=
    (hrevperm.pairwise_iff (fun h => Ne.symm h)).mpr hnd
  have hD : (sortJS (keyLtB key) false l).Pairwise fun a b => key b < key a :=
    (hsortD.and hndD).imp fun h => lt_of_le_of_ne h.1 (Ne.symm h.2)
  have hR : ((sortJS (keyLtB key) true l).reverse).Pairwise fun a b => key b < key a :=
    (hrevA.and hndR).imp fun h => lt_of_le_of_ne h.1 (Ne.symm h.2)
  haveI : IsAntisymm α fun a b => key b < key a :=
    ⟨fun a b h1 h2 => absurd (h1.trans h2) (lt_irrefl _)⟩
  exact List.eq_of_perm_of_sorted (hpermD.trans hrevperm.symm) hD hR

theorem sortJS_bundle {α K : Type} [LinearOrder K] (key : α → K) (asc : Bool) (l : List α) :
    (sortJS (keyLtB key) asc l).Perm l ∧
    ((sortJS (keyLtB key) asc l).Pairwise fun a b => jsCompare (keyLtB key) asc a b ≤ 0) ∧
    (∀ p : α → Bool, (∀ a b, p a = true → p b = true → jsCompare (keyLtB key) true a b = 0) →
      (sortJS (keyLtB key) asc l).filter p = l.filter p) ∧
    ((l.Pairwise fun a b => jsCompare (keyLtB key) true a b ≠ 0) →
      sortJS (keyLtB key) false l = (sortJS (keyLtB key) true l).reverse) := by
  refine ⟨List.perm_insertionSort _ l, sortJS_sorted key asc l, ?_, ?_⟩
  · intro p hp
    exact sortJS_filter_stable key asc p
      (fun a b hpa hpb => (jsCompare_zero_iff key true a b).mp (hp a b hpa hpb)) l
  · intro hnd
    exact sortJS_desc_reverse key l
      (hnd.imp fun h => fun hk => h ((jsCompare_zero_iff key true _ _).mpr hk))

/-- C3 counterexample: on confidences [50, 90, 50] the stable sort breaks the
ties identically in both runs, so the descending output [b, a, c] is not the
reverse [b, c, a] of the ascending output [a, c, b]. -/
theorem sortHistory_desc_not_reverse :
    ¬ (sortHistory .confidence false [exRowA, exRowB, exRowC] =
        (sortHistory .confidence true [exRowA, exRowB, exRowC]).reverse) := by
  decide

/-- C3 amended: the history sort is a stable total order on the chosen key in
the chosen direction, with ties broken by input order (the example sorts
ascending to [a(50), c(50), b(90)]); descending output is the exact reverse of
ascending output when the key values are pairwise distinct, while equal-key
ties are broken identically in both runs. -/
theorem sortHistory_stable (l : List Row) (k : SortKey) (asc : Bool) :
    (sortHistory k asc l).Perm l ∧
    ((sortHistory k asc l).Pairwise fun a b => jsCompare (keyLt k) asc a b ≤ 0) ∧
    (∀ p : Row → Bool, (∀ a b, p a = true → p b = true → jsCompare (keyLt k) true a b = 0) →
      (sortHistory k asc l).filter p = l.filter p) ∧
    ((l.Pairwise fun a b => jsCompare (keyLt k) true a b ≠ 0) →
      sortHistory k false l = (sortHistory k true l).reverse) ∧
    sortHistory .confidence true [exRowA, exRowB, exRowC] = [exRowA, exRowC, exRowB] := by
  refine ⟨?_, ?_, ?_, ?_, by decide⟩ <;> cases k <;>
    first
    | exact (sortJS_bundle (fun r : Row => r.created_at) asc l).1
    | exact (sortJS_bundle (fun r : Row => r.sensor_id) asc l).1
    | exact (sortJS_bundle (fun r : Row => r.status_text) asc l).1
    | exact (sortJS_bundle (fun r : Row => r.confidence) asc l).1
    | exact (sortJS_bundle (fun r : Row => r.leak_size) asc l).1
    | exact (sortJS_bundle (fun r : Row => r.location) asc l).1
    | exact (sortJS_bundle (fun r : Row => r.created_at) asc l).2.1
    | exact (sortJS_bundle (fun r : Row => r.sensor_id) asc l).2.1
    | exact (sortJS_bundle (fun r : Row => r.status_text) asc l).2.1
    | exact (sortJS_bundle (fun r : Row => r.confidence) asc l).2.1
    | exact (sortJS_bundle (fun r : Row => r.leak_size) asc l).2.1
    | exact (sortJS_bundle (fun r : Row => r.location) asc l).2.1
    | exact (sortJS_bundle (fun r : Row => r.created_at) asc l).2.2.1
    | exact (sortJS_bundle (fun r : Row => r.sensor_id) asc l).2.2.1
    | exact (sortJS_bundle (fun r : Row => r.status_text) asc l).2.2.1
    | exact (sortJS_bundle (fun r : Row => r.confidence) asc l).2.2.1
    | exact (sortJS_bundle (fun r : Row => r.leak_size) asc l).2.2.1
    | exact (sortJS_bundle (fun r : Row => r.location) asc l).2.2.1
    | exact (sortJS_bundle (fun r : Row => r.created_at) asc l).2.2.2
    | exact (sortJS_bundle (fun r : Row => r.sensor_id) asc l).2.2.2
    | exact (sortJS_bundle (fun r : Row => r.status_text) asc l).2.2.2
    | exact (sortJS_bundle (fun r : Row => r.confidence) asc l).2.2.2
    | exact (sortJS_bundle (fun r : Row => r.leak_size) asc l).2.2.2
    | exact (sortJS_bundle (fun r : Row => r.location) asc l).2.2.2

theorem sortHistory_stable_witness :
    ((sortHistory .confidence true [exRowA, exRowB, exRowC]).filter
        (fun r => r.confidence == 50) =
      ([exRowA, exRowB, exRowC].filter fun r => r.confidence == 50)) ∧
    sortHistory .confidence false [exRowA, exRowB] =
      (sortHistory .confidence true [exRowA, exRowB]).reverse :=
  ⟨(sortHistory_stable [exRowA, exRowB, exRowC] .confidence true).2.2.1 _
      (fun a b ha hb => by
        have ha2 : a.confidence = 50 := by simpa using ha
        have hb2 : b.confidence = 50 := by simpa using hb
        simp [jsCompare, keyLt, keyLtB, ha2, hb2]),
    (sortHistory_stable [exRowA, exRowB] .confidence false).2.2.2.1 (by decide)⟩

end WaterLeak
